import Mathlib

/-!
Verification of the restaurant-ordering HTTP service: a shallow embedding of
the wire codec, router, endpoint handlers and stores, with theorems checking
the specification's claims against the code.

Strings on the wire are modelled as lists of characters, one character per
byte (the inputs in scope are ASCII or clean UTF-8, where Rust byte lengths
coincide with the model's list lengths).
-/

namespace Paidy

/-- Byte strings of the wire protocol and of the application's string data. -/
abbrev Str := List Char

/-- Fuelled accumulator loop for decimal rendering of unsigned integers,
structural so that it evaluates by kernel reduction. -/
def natToStrGo : Nat → Nat → Str → Str
  | 0, _, acc => acc
  | fuel + 1, n, acc =>
    if n < 10 then Nat.digitChar n :: acc
    else natToStrGo fuel (n / 10) (Nat.digitChar (n % 10) :: acc)

/-- Decimal rendering of an unsigned integer, as produced by Rust's
`Display` implementation for unsigned integers (used by `format!`). -/
def natToStr (n : Nat) : Str := natToStrGo (n + 1) n []

/-- Value of a decimal digit string (used to model `str::parse`). -/
def digitsToNat (s : Str) : Nat := s.foldl (fun a c => a * 10 + (c.toNat - 48)) 0

/-- Drop one optional leading plus sign, as Rust's integer `from_str` does. -/
def stripPlus : Str → Str
  | '+' :: r => r
  | s => s

/-- Models Rust `str::parse` for an unsigned integer type whose values are
below `bound`: an optional leading plus sign, then one or more ASCII digits,
rejecting overflow. -/
def parseUIntStr (bound : Nat) (s : Str) : Option Nat :=
  let t := stripPlus s
  if t ≠ [] ∧ t.all Char.isDigit ∧ digitsToNat t < bound then some (digitsToNat t)
  else none

/-- Models `str::parse::<usize>` (64-bit usize). -/
def parseUsizeStr : Str → Option Nat := parseUIntStr (2 ^ 64)

/-- Models `str::parse::<u32>`. -/
def parseU32Str : Str → Option Nat := parseUIntStr (2 ^ 32)

theorem natToStrGo_acc (fuel : Nat) :
    ∀ n acc, natToStrGo fuel n acc = natToStrGo fuel n [] ++ acc := by
  induction fuel with
  | zero => intro n acc; simp [natToStrGo]
  | succ fuel ih =>
    intro n acc
    by_cases h : n < 10
    · simp [natToStrGo, h]
    · simp only [natToStrGo, if_neg h]
      rw [ih (n / 10) (Nat.digitChar (n % 10) :: acc),
        ih (n / 10) [Nat.digitChar (n % 10)]]
      simp

theorem digitChar_toNat : ∀ m, m < 10 → (Nat.digitChar m).toNat = 48 + m := by decide

theorem digitChar_isDigit : ∀ m, m < 10 → (Nat.digitChar m).isDigit = true := by decide

theorem digitsToNat_append_digit (s : Str) (c : Char) :
    digitsToNat (s ++ [c]) = digitsToNat s * 10 + (c.toNat - 48) := by
  simp [digitsToNat]

theorem natToStrGo_spec (fuel : Nat) :
    ∀ n, n < fuel →
      digitsToNat (natToStrGo fuel n []) = n ∧
      (natToStrGo fuel n []).all Char.isDigit = true ∧
      natToStrGo fuel n [] ≠ [] := by
  induction fuel with
  | zero => intro n h; omega
  | succ fuel ih =>
    intro n h
    by_cases h10 : n < 10
    · refine ⟨?_, ?_, ?_⟩
      · simp [natToStrGo, h10, digitsToNat, digitChar_toNat n h10]
      · simp [natToStrGo, h10, digitChar_isDigit n h10]
      · simp [natToStrGo, h10]
    · have hdiv : n / 10 < n := Nat.div_lt_self (by omega) (by omega)
      have hfuel : n / 10 < fuel := by omega
      obtain ⟨hv, hd, hne⟩ := ih (n / 10) hfuel
      have hmod : n % 10 < 10 := Nat.mod_lt _ (by omega)
      refine ⟨?_, ?_, ?_⟩
      · rw [natToStrGo, if_neg h10, natToStrGo_acc, digitsToNat_append_digit, hv,
          digitChar_toNat _ hmod]
        omega
      · rw [natToStrGo, if_neg h10, natToStrGo_acc]
        simp only [List.all_append, hd, Bool.true_and, List.all_cons, List.all_nil,
          Bool.and_true]
        exact digitChar_isDigit _ hmod
      · rw [natToStrGo, if_neg h10, natToStrGo_acc]
        simp

theorem digitsToNat_natToStr (n : Nat) : digitsToNat (natToStr n) = n :=
  (natToStrGo_spec (n + 1) n (Nat.lt_succ_self n)).1

theorem natToStr_all_digit (n : Nat) : (natToStr n).all Char.isDigit = true :=
  (natToStrGo_spec (n + 1) n (Nat.lt_succ_self n)).2.1

theorem natToStr_ne_nil (n : Nat) : natToStr n ≠ [] :=
  (natToStrGo_spec (n + 1) n (Nat.lt_succ_self n)).2.2

theorem isDigit_ne {c : Char} (h : c.isDigit = true) :
    c ≠ '+' ∧ c ≠ ' ' ∧ c ≠ '\x0d' ∧ c ≠ '\x0a' ∧ c ≠ ':' ∧ c ≠ '\x09' := by
  refine ⟨?_, ?_, ?_, ?_, ?_, ?_⟩ <;> (intro he; subst he; exact absurd h (by decide))

theorem all_mem_of_all {p : Char → Bool} {s : Str} (h : s.all p = true) :
    ∀ c ∈ s, p c = true := by
  intro c hc; exact List.all_eq_true.mp h c hc

theorem stripPlus_of_digits {s : Str} (h : s.all Char.isDigit = true) :
    stripPlus s = s := by
  cases s with
  | nil => rfl
  | cons c r =>
    have hc : c.isDigit = true := all_mem_of_all h c (List.mem_cons_self c r)
    rw [stripPlus.eq_def]
    split
    · rename_i heq
      have : c = '+' := by injection heq
      exact absurd this (isDigit_ne hc).1
    · rfl

theorem parseUIntStr_natToStr (bound n : Nat) (h : n < bound) :
    parseUIntStr bound (natToStr n) = some n := by
  have hall := natToStr_all_digit n
  have hne := natToStr_ne_nil n
  rw [parseUIntStr]
  simp only [stripPlus_of_digits hall]
  rw [if_pos ⟨hne, hall, by rw [digitsToNat_natToStr]; exact h⟩,
    digitsToNat_natToStr]

theorem parseUsizeStr_natToStr (n : Nat) (h : n < 2 ^ 64) :
    parseUsizeStr (natToStr n) = some n := parseUIntStr_natToStr _ n h

/-! ## Data model (src/http/request.rs, src/http/response.rs, src/errors.rs, src/api.rs) -/

/-- A parsed HTTP request: `Request` from src/http/request.rs. -/
structure Request where
  method : Str
  path : Str
  headers : List (Str × Str)
  body : Str
deriving DecidableEq, Repr

/-- `Request::get`: a GET request for the given path, with an empty body. -/
def Request.get (path : Str) : Request :=
  { method := ("GET").toList, body := [], headers := [], path := path }

/-- `Request::post`: a POST request for the given path with the given body. -/
def Request.post (path : Str) (body : Str) : Request :=
  { method := ("POST").toList, body := body, headers := [], path := path }

/-- `Request::delete`: a DELETE request for the given path with the given body. -/
def Request.delete (path : Str) (body : Str) : Request :=
  { method := ("DELETE").toList, body := body, headers := [], path := path }

/-- An HTTP response: `Response` from src/http/response.rs. `Content-Length`
is not stored among the headers; it is computed at serialization time. -/
structure Response where
  status : Option Nat
  headers : List (Str × Str)
  body : Str
deriving DecidableEq, Repr

instance : Inhabited Response := ⟨{ status := none, headers := [], body := [] }⟩

/-- `Response::ok`: an empty 204 response. -/
def Response.ok : Response := { status := some 204, headers := [], body := [] }

/-- `Response::ok_with_body`: a 200 response with the given body. -/
def Response.okWithBody (s : Str) : Response :=
  { status := some 200, headers := [], body := s }

/-- `Response::error`: asserts `(400..600).contains(&code)` and builds a
body-less response. The assertion failure (a Rust panic) is modelled as
`none`. -/
def Response.error (code : Nat) : Option Response :=
  if 400 ≤ code ∧ code < 600 then
    some { status := some code, headers := [], body := [] }
  else none

/-- `Response::internal_server_error` is `Response::error(500)`; the
assertion passes, so the panic-free value is extracted. -/
def Response.internalServerError : Response := (Response.error 500).getD default

/-- The application error enum from src/errors.rs. -/
inductive Error where
  | NoResponse
  | NotFound (msg : Str)
  | BadRequest (msg : Str)
  | InternalServerError (msg : Str)
  | ConnectionReset
deriving DecidableEq, Repr

/-- `BoxedError = Box<dyn std::error::Error>`: either the application's own
`Error` enum or a foreign error (the only foreign one reaching the modelled
code paths is a `httparse` parse error). -/
inductive BoxedError where
  | app (e : Error)
  | hp
deriving DecidableEq, Repr

instance instDecEqExcept {ε α : Type} [DecidableEq ε] [DecidableEq α] :
    DecidableEq (Except ε α) := fun x y =>
  match x, y with
  | .ok a, .ok b =>
    if h : a = b then isTrue (by rw [h])
    else isFalse (fun hc => h (by injection hc))
  | .error a, .error b =>
    if h : a = b then isTrue (by rw [h])
    else isFalse (fun hc => h (by injection hc))
  | .ok _, .error _ => isFalse (fun hc => Except.noConfusion hc)
  | .error _, .ok _ => isFalse (fun hc => Except.noConfusion hc)

/-- `Item` from src/api.rs. -/
structure Item where
  name : Str
  time_to_completion : Nat
  id : Nat
deriving DecidableEq, Repr

/-- `Order` from src/api.rs. -/
structure Order where
  table_number : Nat
  items : List Item
deriving DecidableEq, Repr

/-! ## httparse model

The repository parses requests and responses with the external `httparse`
crate, using a 64-slot header array. The following is a model of
`httparse::Request::parse` on the RFC-7230-style grammar the crate
implements (request line, CRLF-terminated `name: value` headers, final empty
CRLF line), with the tri-state Complete / Partial / Error outcome. -/

/-- Tri-state outcome of a scanning step: found a delimited chunk, need more
input, or hit an invalid byte. -/
inductive Scan where
  | found (taken : Str) (rest : Str)
  | more
  | bad
deriving DecidableEq, Repr

/-- Scan characters until the `stop` character (consumed); fail on a byte
satisfying `isBad`; report `more` when the input ends first. -/
def scanUntil (stop : Char) (isBad : Char → Bool) : Str → Scan
  | [] => .more
  | c :: cs =>
    if c = stop then .found [] cs
    else if isBad c then .bad
    else
      match scanUntil stop isBad cs with
      | .found t r => .found (c :: t) r
      | out => out

/-- Expect a literal string; `more` when the input is a proper prefix. -/
def expectStr : Str → Str → Scan
  | [], s => .found [] s
  | _ :: _, [] => .more
  | e :: es, c :: cs => if c = e then expectStr es cs else .bad

/-- Outcome of the header-section scanner. -/
inductive HScan where
  | done (headers : List (Str × Str)) (rest : Str)
  | more
  | bad
deriving Repr

/-- Header-section scanner: repeated `name: value CRLF` lines terminated by
an empty CRLF line. Header names are tokens (no spaces); leading spaces and
tabs of a value are skipped, as `httparse` does. The fuel only bounds the
number of header lines; each line consumes at least one character, so the
caller passes the input length plus one. -/
def parseHeaders : Nat → Str → HScan
  | 0, _ => .more
  | fuel + 1, s =>
    match s with
    | [] => .more
    | c :: rest =>
      if c = '\x0d' then
        match rest with
        | [] => .more
        | c2 :: rest2 => if c2 = '\x0a' then .done [] rest2 else .bad
      else
        match scanUntil ':' (fun d => d == ' ' || d == '\x0d' || d == '\x0a') (c :: rest) with
        | .more => .more
        | .bad => .bad
        | .found name r1 =>
          if name = [] then .bad
          else
            match scanUntil '\x0d' (fun d => d == '\x0a')
                (r1.dropWhile (fun d => d == ' ' || d == '\x09')) with
            | .more => .more
            | .bad => .bad
            | .found v r2 =>
              match r2 with
              | [] => .more
              | c3 :: r3 =>
                if c3 = '\x0a' then
                  match parseHeaders fuel r3 with
                  | .done hs rest2 => .done ((name, v) :: hs) rest2
                  | out => out
                else .bad

/-- Outcome of `httparse::Request::parse` on a byte buffer. `complete`
carries the parsed request line and headers together with the unconsumed
rest of the buffer; the number of parsed bytes is the buffer length minus
the rest length. -/
inductive HStatus where
  | complete (method : Str) (path : Str) (headers : List (Str × Str)) (rest : Str)
  | incomplete
  | failed
deriving Repr

/-- Model of `httparse::Request::parse` with a 64-slot header array:
`method SP path SP HTTP/1.1 CRLF`, then the header section. More than 64
headers is a `TooManyHeaders` error. -/
def httparseRequest (s : Str) : HStatus :=
  match scanUntil ' ' (fun c => c == '\x0d' || c == '\x0a') s with
  | .more => .incomplete
  | .bad => .failed
  | .found m r1 =>
    if m = [] then .failed
    else
      match scanUntil ' ' (fun c => c == '\x0d' || c == '\x0a') r1 with
      | .more => .incomplete
      | .bad => .failed
      | .found p r2 =>
        if p = [] then .failed
        else
          match expectStr (("HTTP/1.1\x0d\x0a").toList) r2 with
          | .more => .incomplete
          | .bad => .failed
          | .found _ r3 =>
            match parseHeaders (r3.length + 1) r3 with
            | .more => .incomplete
            | .bad => .failed
            | .done hs rest =>
              if hs.length > 64 then .failed
              else .complete m p hs rest

/-! ## parse_request (src/http/request.rs)

The byte source (a `BufReader` over the socket) is modelled as the list of
chunks successive `read` calls deliver; an exhausted list or an empty chunk
is a zero-length read. The 4096-byte scratch buffer only caps the size of a
single chunk and does not affect the accumulated value, so no bound on chunk
length is imposed. -/

/-- The `Content-Length` lookup of `parse_request`: the first header named
exactly `Content-Length`, its value parsed as `usize`, defaulting to 0. -/
def contentLengthOf (hs : List (Str × Str)) : Nat :=
  match hs.find? (fun h => h.1 == ("Content-Length").toList) with
  | some h => (parseUsizeStr h.2).getD 0
  | none => 0

/-- Phase one of `parse_request`: append chunks to the accumulator until
`httparse` reports a complete header section; returns the body length from
`Content-Length`, the parsed length, the request without its body, the
accumulator, and the unread chunks. -/
def phase1 : List Str → Str → Except BoxedError (Nat × Nat × Request × Str × List Str)
  | [], _ => .error (.app .ConnectionReset)
  | chunk :: rest, acc =>
    if chunk = [] then .error (.app .ConnectionReset)
    else
      let acc2 := acc ++ chunk
      match httparseRequest acc2 with
      | .complete m p hs r =>
        .ok (contentLengthOf hs, acc2.length - r.length,
          { method := m, path := p, headers := hs, body := [] }, acc2, rest)
      | .incomplete => phase1 rest acc2
      | .failed => .error .hp

/-- Phase two of `parse_request`: keep reading while the accumulator holds
fewer than `parsedLen + bodyLen` bytes. -/
def phase2 : List Str → Str → Nat → Nat → Except BoxedError Str
  | chunks, acc, parsedLen, bodyLen =>
    if bodyLen > acc.length - parsedLen then
      match chunks with
      | [] => .error (.app .ConnectionReset)
      | c :: rest =>
        if c = [] then .error (.app .ConnectionReset)
        else phase2 rest (acc ++ c) parsedLen bodyLen
    else .ok acc

/-- `parse_request` from src/http/request.rs: two-phase incremental parse,
then the body is the slice `[parsed_len, parsed_len + body_len)` of the
accumulated input. -/
def parseRequest (chunks : List Str) : Except BoxedError Request :=
  match phase1 chunks [] with
  | .error e => .error e
  | .ok (bodyLen, parsedLen, req, acc, rest) =>
    match phase2 rest acc parsedLen bodyLen with
    | .error e => .error e
    | .ok acc2 => .ok { req with body := (acc2.drop parsedLen).take bodyLen }

/-! ## Client wire format (src/http/client.rs) and response writing
(src/http/server.rs) -/

/-- The bytes `HttpClient::send` writes for `(method, endpoint, body)`:
`format!("{} {} HTTP/1.1\r\nContent-Length: {}\r\n\r\n{}", method, endpoint,
body.len(), body)`. Note that no headers other than `Content-Length` are
ever written. -/
def clientWire (method endpoint body : Str) : Str :=
  method ++ [' '] ++ endpoint ++ ((" HTTP/1.1\x0d\x0aContent-Length: ").toList)
    ++ natToStr body.length ++ (("\x0d\x0a\x0d\x0a").toList) ++ body

/-- `code_to_string` from src/http/server.rs; the catch-all arm is a
`panic!`, modelled as `none`. -/
def codeToString : Nat → Option Str
  | 400 => some (("Bad Request").toList)
  | 404 => some (("Not Found").toList)
  | 200 => some (("OK").toList)
  | 204 => some (("No Content").toList)
  | 500 => some (("Internal Server Error").toList)
  | _ => none

/-- The bytes `respond` (src/http/server.rs) writes to the stream:
`format!("HTTP/1.1 {} {}\r\nContent-Length: {}\r\n{}\r\n{}", code, reason,
body.len(), joined-headers, body)` with `code = status.unwrap_or(500)`;
`none` models the `code_to_string` panic on a code outside its table. -/
def respondStr (resp : Response) : Option Str :=
  match codeToString (resp.status.getD 500) with
  | none => none
  | some reason =>
    some ((("HTTP/1.1 ").toList) ++ natToStr (resp.status.getD 500) ++ [' '] ++ reason
      ++ (("\x0d\x0a").toList)
      ++ (("Content-Length: ").toList) ++ natToStr resp.body.length
      ++ (("\x0d\x0a").toList)
      ++ (resp.headers.map
            (fun h => h.1 ++ [':'] ++ h.2 ++ (("\x0d\x0a").toList))).flatten
      ++ (("\x0d\x0a").toList) ++ resp.body)

/-- `handle_stream` from src/http/server.rs: parse the request from the
stream; on success respond with the handler's response, on a parse failure
respond with a canned 400 and an empty body. The returned value is the byte
string written back to the socket. -/
def handleStream (chunks : List Str) (handler : Request → Response) : Option Str :=
  match parseRequest chunks with
  | .ok req => respondStr (handler req)
  | .error _ =>
    respondStr { status := some 400, body := [], headers := [] }

/-! ## Router (src/routes.rs)

The route matcher is the external `matchit` crate. The four registered
patterns have pairwise distinct segment counts, so no path matches two of
them and first-match over the pattern list coincides with `matchit`'s
static-over-parameter trie priority. A `{name}` placeholder binds exactly
one non-empty segment. -/

/-- Split a string on a separator character, keeping empty fields. -/
def splitOn (sep : Char) : Str → List Str
  | [] => [[]]
  | c :: cs =>
    if c = sep then [] :: splitOn sep cs
    else
      match splitOn sep cs with
      | g :: gs => (c :: g) :: gs
      | [] => [[c]]

/-- A pattern segment: a literal or a `\x7bname\x7d` placeholder. -/
inductive Seg where
  | lit (s : Str)
  | param (name : Str)
deriving DecidableEq, Repr

/-- Classify one pattern segment. -/
def toSeg (s : Str) : Seg :=
  if s.head? = some '\x7b' ∧ s.getLast? = some '\x7d' then
    .param ((s.drop 1).dropLast)
  else .lit s

/-- Segments of a registered pattern string. -/
def patternSegs (p : Str) : List Seg := (splitOn '/' p).map toSeg

/-- Match path segments against pattern segments, collecting placeholder
bindings; a placeholder binds one non-empty segment. -/
def matchSegs : List Seg → List Str → Option (List (Str × Str))
  | [], [] => some []
  | .lit l :: ps, s :: ss => if s = l then matchSegs ps ss else none
  | .param n :: ps, s :: ss =>
    if s = [] then none
    else (matchSegs ps ss).map (fun bs => (n, s) :: bs)
  | _, _ => none

/-- The pattern constants from the `make_paths!` invocation in
src/routes.rs (`concat!("/api/v1", path)`). -/
def ordersPath : Str := ("/api/v1/orders").toList

/-- Pattern `/api/v1/orders/\x7border_id\x7d`. -/
def orderByIdPath : Str := ("/api/v1/orders/\x7border_id\x7d").toList

/-- Pattern `/api/v1/orders/\x7border_id\x7d/items`. -/
def itemsPath : Str := ("/api/v1/orders/\x7border_id\x7d/items").toList

/-- Pattern `/api/v1/orders/\x7border_id\x7d/items/\x7bitem_id\x7d`. -/
def itemByIdPath : Str := ("/api/v1/orders/\x7border_id\x7d/items/\x7bitem_id\x7d").toList

/-- The endpoint keys from `make_paths!` (`stringify!(name)`). -/
def ordersKey : Str := ("ORDERS").toList

/-- Key of the order-by-id pattern. -/
def orderByIdKey : Str := ("ORDER_BY_ID").toList

/-- Key of the items pattern. -/
def itemsKey : Str := ("ITEMS").toList

/-- Key of the item-by-id pattern. -/
def itemByIdKey : Str := ("ITEM_BY_ID").toList

/-- `new_router()`: the `matchit` router preloaded with the four patterns,
modelled as an association list pattern → key in registration order. -/
def newRouter : List (Str × Str) :=
  [(ordersPath, ordersKey), (orderByIdPath, orderByIdKey),
   (itemsPath, itemsKey), (itemByIdPath, itemByIdKey)]

/-- Model of `Router::at`: the first registered pattern matching the path
(equal to `matchit`'s answer because the registered patterns are disjoint). -/
def routerAt (routes : List (Str × Str)) (path : Str) : Option (Str × List (Str × Str)) :=
  match routes with
  | [] => none
  | (pat, key) :: rs =>
    match matchSegs (patternSegs pat) (splitOn '/' path) with
    | some bs => some (key, bs)
    | none => routerAt rs path

/-- Path-parameter maps (`HttpParams = HashMap<String, String>`), modelled
as association lists with unique keys. -/
abbrev HttpParams := List (Str × Str)

/-- `HashMap` lookup on the association-list model. -/
def alLookup {α : Type} (k : Str) : List (Str × α) → Option α
  | [] => none
  | (k2, v) :: rest => if k2 = k then some v else alLookup k rest

/-- `HashMap` insert on the association-list model: replaces the binding if
the key is present. -/
def alInsert {α : Type} (k : Str) (v : α) : List (Str × α) → List (Str × α)
  | [] => [(k, v)]
  | (k2, v2) :: rest =>
    if k2 = k then (k, v) :: rest else (k2, v2) :: alInsert k v rest

/-! ## Stores (src/database.rs and src/database/sqlite.rs)

Randomness (`rand::thread_rng().gen_range(5..15)`) is modelled by a stream
of naturals: one draw consumes the head of the stream and yields a value in
`[5, 15)`. The `u32` counters wrap at `2^32` (release-mode arithmetic /
`AtomicU32::fetch_add`). -/

/-- A random source: an infinite stream of naturals. -/
abbrev RandSt := Nat → Nat

/-- One draw of `gen_range(5..15)`: a value in `[5, 15)` plus the advanced
stream. -/
def getRand (g : RandSt) : Nat × RandSt := (5 + g 0 % 10, fun n => g (n + 1))

/-- `MockDB` state: the `Vec<(u32, Item)>` of rows and the `u32` id counter. -/
structure MockSt where
  rows : List (Nat × Item)
  counter : Nat
deriving DecidableEq, Repr

/-- `MockDB::new()`: the empty store. -/
def mockNew : MockSt := { rows := [], counter := 0 }

/-- `MockDB::get_order`: the items whose table id matches; `NotFound` when
there are none. -/
def mockGetOrder (st : MockSt) (tableId : Nat) : Except BoxedError Order :=
  let items := (st.rows.filter (fun e => e.1 == tableId)).map (fun e => e.2)
  if items = [] then
    .error (.app (.NotFound ((("No orders for table ").toList) ++ natToStr tableId)))
  else .ok { items := items, table_number := tableId }

/-- `MockDB::get_order_item`: the first row matching both ids, `NotFound`
otherwise. -/
def mockGetOrderItem (st : MockSt) (tableId orderId : Nat) : Except BoxedError Item :=
  match st.rows.find? (fun e => e.1 == tableId && e.2.id == orderId) with
  | some e => .ok e.2
  | none =>
    .error (.app (.NotFound ((("No item with id ").toList) ++ natToStr orderId
      ++ ((" for table ").toList) ++ natToStr tableId)))

/-- The per-item loop body of `MockDB::insert_orders`: read the counter as
the id, bump it (wrapping `u32` arithmetic), draw a completion time. -/
def mockInsertGo (tableId : Nat) :
    List Str → Nat → RandSt → List (Nat × Item) × Nat × RandSt
  | [], c, g => ([], c, g)
  | name :: rest, c, g =>
    let id := c
    let c1 := (c + 1) % 2 ^ 32
    let (t, g1) := getRand g
    let (es, c2, g2) := mockInsertGo tableId rest c1 g1
    ((tableId, { name := name, time_to_completion := t, id := id }) :: es, c2, g2)

/-- `MockDB::insert_orders`: build the new rows, return copies of their
items, extend the store. -/
def mockInsertOrders (names : List Str) (tableId : Nat) (st : MockSt) (g : RandSt) :
    List Item × MockSt × RandSt :=
  let (dbItems, c2, g2) := mockInsertGo tableId names st.counter g
  (dbItems.map (fun e => e.2),
   { rows := st.rows ++ dbItems, counter := c2 }, g2)

/-- Remove the first element satisfying `p`, returning it and the remaining
list; renders `Vec::position` followed by `Vec::remove` in
`MockDB::delete_item`. -/
def removeFirst {α : Type} (p : α → Bool) : List α → Option (α × List α)
  | [] => none
  | x :: xs =>
    if p x then some (x, xs)
    else
      match removeFirst p xs with
      | none => none
      | some (y, ys) => some (y, x :: ys)

/-- The row predicate of `MockDB::delete_item` and `get_order_item`. -/
def rowMatches (tableId orderId : Nat) (e : Nat × Item) : Bool :=
  e.1 == tableId && e.2.id == orderId

/-- `MockDB::delete_item`: remove and return the first row matching both
ids; `NotFound` (with the store untouched) otherwise. -/
def mockDeleteItem (tableId orderId : Nat) (st : MockSt) :
    Except BoxedError Item × MockSt :=
  match removeFirst (rowMatches tableId orderId) st.rows with
  | none =>
    (.error (.app (.NotFound ((("No item with id ").toList) ++ natToStr orderId
      ++ ((" for table ").toList) ++ natToStr tableId))), st)
  | some (e, rest) => (.ok e.2, { st with rows := rest })

/-- One row of the in-memory SQLite `orders` table
(`id, item, table_number, time_to_completion`). -/
structure SqlRow where
  id : Nat
  item : Str
  table_number : Nat
  time_to_completion : Nat
deriving DecidableEq, Repr

/-- `SQLiteConnection` state: the `orders` table rows in insertion order and
the `AtomicU32` id counter. -/
structure SqlSt where
  rows : List SqlRow
  counter : Nat
deriving DecidableEq, Repr

/-- `SQLiteConnection::new()`: an empty `orders` table, counter 0. -/
def sqlNew : SqlSt := { rows := [], counter := 0 }

/-- `SQLiteConnection::get_order`: `SELECT * FROM orders WHERE table_number
= ?1`, every row mapped to an `Item`, always wrapped in `Ok`; note that no
emptiness check is performed. -/
def sqliteGetOrder (st : SqlSt) (tableId : Nat) : Except BoxedError Order :=
  .ok { table_number := tableId,
        items := (st.rows.filter (fun r => r.table_number == tableId)).map
          (fun r => { name := r.item, time_to_completion := r.time_to_completion,
                      id := r.id }) }

/-- The per-item loop of `SQLiteConnection::insert_orders`: ids from
`fetch_add` on the atomic counter, completion times drawn per item. -/
def sqlInsertGo : List Str → Nat → RandSt → List Item × Nat × RandSt
  | [], c, g => ([], c, g)
  | name :: rest, c, g =>
    let id := c
    let c1 := (c + 1) % 2 ^ 32
    let (t, g1) := getRand g
    let (its, c2, g2) := sqlInsertGo rest c1 g1
    ({ name := name, time_to_completion := t, id := id } :: its, c2, g2)

/-- `SQLiteConnection::insert_orders`: build the items, insert them as rows
in one transaction, return them. -/
def sqliteInsertOrders (names : List Str) (tableId : Nat) (st : SqlSt) (g : RandSt) :
    List Item × SqlSt × RandSt :=
  let (items, c2, g2) := sqlInsertGo names st.counter g
  (items,
   { rows := st.rows ++ items.map (fun it =>
       { id := it.id, item := it.name, table_number := tableId,
         time_to_completion := it.time_to_completion }),
     counter := c2 }, g2)

/-! ## Router dispatch and endpoints (src/routes.rs, src/endpoints.rs,
src/bin/server.rs)

The deployed binary instantiates the store with `MockDB`, so the
`&mut dyn Database` handler argument is modelled as a `MockSt` passed and
returned. -/

/-- `HttpHandler = fn(Request, HttpParams, &mut dyn Database) ->
Result<Response>`. -/
abbrev HttpHandler := Request → HttpParams → MockSt → Except BoxedError Response × MockSt

/-- `HttpRouter`: the `matchit` route table and the pattern-key → method →
handler table. -/
structure HttpRouter where
  routes : List (Str × Str)
  handlers : List (Str × List (Str × HttpHandler))

/-- `HttpRouter::new()`: the four patterns registered, no handlers yet. -/
def HttpRouter.new : HttpRouter := { routes := newRouter, handlers := [] }

/-- `HttpRouter::add_route`: `handlers.entry(route).or_insert_with(new)`
then `insert(method, handler)`. -/
def HttpRouter.addRoute (r : HttpRouter) (method route : Str) (h : HttpHandler) :
    HttpRouter :=
  let mtable := (alLookup route r.handlers).getD []
  { r with handlers := alInsert route (alInsert method h mtable) r.handlers }

/-- `HttpRouter::route`: match the path, look up the pattern's method table,
look up the method, copy the placeholder bindings and invoke the handler.
The path-mismatch message models the `matchit::MatchError` display text. -/
def HttpRouter.route (r : HttpRouter) (request : Request) (db : MockSt) :
    Except BoxedError Response × MockSt :=
  match routerAt r.routes request.path with
  | none => (.error (.app (.NotFound (("not found").toList))), db)
  | some (key, ps) =>
    match alLookup key r.handlers with
    | none =>
      (.error (.app (.NotFound
        ((("No method associated to this route: ").toList) ++ key))), db)
    | some mt =>
      match alLookup request.method mt with
      | none =>
        (.error (.app (.NotFound
          ((("No handler for ").toList) ++ request.method ++ [' '] ++ key))), db)
      | some h => h request ps db

/-- Key of order ids in HTTP paths (`params::ORDER_ID`). -/
def orderIdKey : Str := ("order_id").toList

/-- Key of item ids in HTTP paths (`params::ITEM_ID`). -/
def itemIdKey : Str := ("item_id").toList

/-- Display text of Rust's `ParseIntError` for a failed `u32` parse, keyed
on the failure cause. -/
def u32ParseErrMsg (v : Str) : Str :=
  if stripPlus v = [] then ("cannot parse integer from empty string").toList
  else if (stripPlus v).all Char.isDigit = false then
    ("invalid digit found in string").toList
  else ("number too large to fit in target type").toList

/-- `get_id` from src/endpoints.rs: fetch a parameter and parse it as `u32`,
reporting any failure as `BadRequest`. -/
def getId (params : HttpParams) (key : Str) : Except BoxedError Nat :=
  match alLookup key params with
  | none =>
    .error (.app (.BadRequest ((("Missing ").toList) ++ [Char.ofNat 39] ++ key
      ++ [Char.ofNat 39])))
  | some v =>
    match parseU32Str v with
    | some n => .ok n
    | none => .error (.app (.BadRequest (u32ParseErrMsg v)))

/-- Escape one character as `serde_json` does inside a JSON string. -/
def jsonEscapeChar (c : Char) : Str :=
  if c = '"' then ['\\', '"']
  else if c = '\\' then ['\\', '\\']
  else if c = '\x0a' then ['\\', 'n']
  else if c = '\x0d' then ['\\', 'r']
  else if c = '\x09' then ['\\', 't']
  else if c.toNat < 32 then
    ['\\', 'u', '0', '0', Nat.digitChar (c.toNat / 16), Nat.digitChar (c.toNat % 16)]
  else [c]

/-- A JSON string literal. -/
def jsonStr (s : Str) : Str := ['"'] ++ (s.map jsonEscapeChar).flatten ++ ['"']

/-- `serde_json::to_string` on an `Item` (derived `Serialize`, fields in
declaration order). -/
def jsonOfItem (it : Item) : Str :=
  ['\x7b'] ++ (("\"name\":").toList) ++ jsonStr it.name
    ++ ((",\"time_to_completion\":").toList) ++ natToStr it.time_to_completion
    ++ ((",\"id\":").toList) ++ natToStr it.id ++ ['\x7d']

/-- `serde_json::to_string` on an `Order`. -/
def jsonOfOrder (o : Order) : Str :=
  ['\x7b'] ++ (("\"table_number\":").toList) ++ natToStr o.table_number
    ++ ((",\"items\":[").toList) ++ List.intercalate ([',']) (o.items.map jsonOfItem)
    ++ [']'] ++ ['\x7d']

/-- `serialize` from src/endpoints.rs: `serde_json::to_string`, which cannot
fail on these derived types. -/
def serializeOrder (o : Order) : Except BoxedError Str := .ok (jsonOfOrder o)

/-- `get_items` from src/endpoints.rs: validate `order_id`, fetch the order,
serialize it into a 200 response. -/
def getItems (_req : Request) (params : HttpParams) (db : MockSt) :
    Except BoxedError Response × MockSt :=
  (match getId params orderIdKey with
  | .error e => .error e
  | .ok orderId =>
    match mockGetOrder db orderId with
    | .error e => .error e
    | .ok ord =>
      match serializeOrder ord with
      | .error e => .error e
      | .ok s => .ok (Response.okWithBody s), db)

/-- The error-to-response mapping of the server binary (src/bin/server.rs):
`NotFound` becomes 404, `BadRequest` becomes 400, anything else 500, always
with an empty body. -/
def errorToResponse (e : BoxedError) : Response :=
  match e with
  | .app (.NotFound _) => (Response.error 404).getD default
  | .app (.BadRequest _) => (Response.error 400).getD default
  | _ => Response.internalServerError

/-- The request handler closure of src/bin/server.rs: route the request
against the store and map an error to its body-less response. -/
def serveHandler (router : HttpRouter) (request : Request) (db : MockSt) :
    Response × MockSt :=
  match router.route request db with
  | (.ok resp, db2) => (resp, db2)
  | (.error e, db2) => (errorToResponse e, db2)

/-! ## Spec-side definitions and shared fixtures -/

/-- The response wire format as the specification words it: status line with
the fixed reason phrase, a recomputed `Content-Length`, the extra headers
verbatim, a blank line, the body. -/
def specWire (code : Nat) (reason : Str) (resp : Response) : Str :=
  (("HTTP/1.1 ").toList) ++ natToStr code ++ [' '] ++ reason
    ++ (("\x0d\x0a").toList)
    ++ (("Content-Length: ").toList) ++ natToStr resp.body.length
    ++ (("\x0d\x0a").toList)
    ++ (resp.headers.map
          (fun h => h.1 ++ [':'] ++ h.2 ++ (("\x0d\x0a").toList))).flatten
    ++ (("\x0d\x0a").toList) ++ resp.body

/-- A router with only `GET` registered for the order-by-id pattern, bound
to `get_items` exactly as `create_http_router` registers it. -/
def demoRouter : HttpRouter :=
  HttpRouter.new.addRoute (("GET").toList) orderByIdKey getItems

/-- The request `POST /api/v1/orders/1` with an empty body. -/
def demoPost : Request := Request.post (("/api/v1/orders/1").toList) []

theorem codeToString_eq_none {c : Nat} (h1 : c ≠ 400) (h2 : c ≠ 404)
    (h3 : c ≠ 200) (h4 : c ≠ 204) (h5 : c ≠ 500) : codeToString c = none := by
  unfold codeToString
  split <;> simp_all

/-- C10: for 400 ≤ code ≤ 599, `Response::error(code)` is a response with
status `Some(code)`, no headers and an empty body; outside that range the
assertion fails (panic); hence an error response built through this
interface never carries a body or a non-error status. -/
theorem c10_response_error (code : Nat) :
    (400 ≤ code ∧ code ≤ 599 →
      Response.error code = some { status := some code, headers := [], body := [] }) ∧
    (¬(400 ≤ code ∧ code ≤ 599) → Response.error code = none) ∧
    (∀ r, Response.error code = some r →
      r.body = [] ∧ ∃ c2, r.status = some c2 ∧ 400 ≤ c2 ∧ c2 ≤ 599) := by
  unfold Response.error
  by_cases h : 400 ≤ code ∧ code < 600
  · rw [if_pos h]
    refine ⟨fun _ => rfl, fun hc => absurd ⟨h.1, by omega⟩ hc, ?_⟩
    intro r hr
    injection hr with hr
    subst hr
    exact ⟨rfl, code, rfl, h.1, by omega⟩
  · rw [if_neg h]
    refine ⟨fun hc => absurd ⟨hc.1, by omega⟩ h, fun _ => rfl, ?_⟩
    intro r hr
    exact absurd hr (by simp)

/-- Witness for C10 at code 404. -/
theorem c10_response_error_witness :
    (400 ≤ 404 ∧ 404 ≤ 599) ∧
      Response.error 404 = some { status := some 404, headers := [], body := [] } :=
  ⟨by decide, (c10_response_error 404).1 (by decide)⟩

/-- C4: for a response whose status is 200, 204, 400, 404 or 500, `respond`
emits exactly the specified wire bytes, with the reason phrase from the
fixed table and `Content-Length` recomputed from the body length (a
caller-supplied `Content-Length` header is only ever copied among the extra
headers, never honoured in the dedicated slot); any other status code
aborts the process. -/
theorem c4_respond_format (resp : Response) (c : Nat) (hs : resp.status = some c) :
    (c = 200 → respondStr resp = some (specWire 200 (("OK").toList) resp)) ∧
    (c = 204 → respondStr resp = some (specWire 204 (("No Content").toList) resp)) ∧
    (c = 400 → respondStr resp = some (specWire 400 (("Bad Request").toList) resp)) ∧
    (c = 404 → respondStr resp = some (specWire 404 (("Not Found").toList) resp)) ∧
    (c = 500 →
      respondStr resp = some (specWire 500 (("Internal Server Error").toList) resp)) ∧
    (c ≠ 200 → c ≠ 204 → c ≠ 400 → c ≠ 404 → c ≠ 500 → respondStr resp = none) := by
  unfold respondStr
  rw [hs]
  refine ⟨?_, ?_, ?_, ?_, ?_, ?_⟩ <;> intro hc
  on_goal 6 =>
    intro h2 h3 h4 h5
    simp only [Option.getD_some, codeToString_eq_none h3 h4 hc h2 h5]
  all_goals subst hc; rfl

/-- Witness for C4 at a 404 response carrying one extra header and a body. -/
theorem c4_respond_format_witness :
    respondStr { status := some 404, headers := [((("X-A").toList), (("y").toList))],
                 body := ("ab").toList } =
      some (specWire 404 (("Not Found").toList)
        { status := some 404, headers := [((("X-A").toList), (("y").toList))],
          body := ("ab").toList }) :=
  (c4_respond_format _ 404 rfl).2.2.2.1 rfl

/-- C5: whenever the bytes of a connection fail to parse as a complete
request, `handle_stream` writes the canned `400 Bad Request` response with
an empty body, and the handler is never invoked (the written bytes are the
same for every handler). -/
theorem c5_parse_failure_writes_400 (chunks : List Str)
    (handler : Request → Response) (e : BoxedError)
    (h : parseRequest chunks = .error e) :
    handleStream chunks handler =
      some (("HTTP/1.1 400 Bad Request\x0d\x0aContent-Length: 0\x0d\x0a\x0d\x0a").toList) := by
  unfold handleStream
  rw [h]
  rfl

/-- Witness for C5 on an immediately-closed connection. -/
theorem c5_parse_failure_writes_400_witness :
    parseRequest [] = .error (.app .ConnectionReset) ∧
      handleStream [] (fun _ => Response.ok) =
        some (("HTTP/1.1 400 Bad Request\x0d\x0aContent-Length: 0\x0d\x0a\x0d\x0a").toList) :=
  ⟨rfl, c5_parse_failure_writes_400 [] (fun _ => Response.ok) (.app .ConnectionReset) rfl⟩

theorem removeFirst_spec {α : Type} (p : α → Bool) :
    ∀ (l : List α) (x : α) (rest : List α), removeFirst p l = some (x, rest) →
      ∃ pre post, l = pre ++ x :: post ∧ p x = true ∧
        (∀ y ∈ pre, p y = false) ∧ rest = pre ++ post := by
  intro l
  induction l with
  | nil => intro x rest h; simp [removeFirst] at h
  | cons a as ih =>
    intro x rest h
    rw [removeFirst] at h
    by_cases ha : p a = true
    · rw [if_pos ha] at h
      injection h with h
      obtain ⟨h1, h2⟩ := Prod.mk.injEq .. ▸ h
      refine ⟨[], as, ?_, ?_, ?_, ?_⟩ <;> simp_all
    · rw [if_neg ha] at h
      cases hr : removeFirst p as with
      | none => rw [hr] at h; exact absurd h (by simp)
      | some pr =>
        obtain ⟨y, ys⟩ := pr
        rw [hr] at h
        injection h with h
        obtain ⟨h1, h2⟩ := Prod.mk.injEq .. ▸ h
        obtain ⟨pre, post, hl, hp, hpre, hrest⟩ := ih y ys hr
        subst h1
        refine ⟨a :: pre, post, by rw [hl]; rfl, hp, ?_,
          by rw [← h2, hrest]; simp⟩
        intro z hz
        rcases List.mem_cons.mp hz with hz | hz
        · subst hz; exact Bool.eq_false_iff.mpr ha
        · exact hpre z hz

/-- C9: `MockDB::delete_item` is atomic on error (the store is exactly
unchanged) and on success removes exactly the first row matching both ids,
returning its item, with every other row and the id counter unchanged. -/
theorem c9_delete_item_atomic (tableId orderId : Nat) (st : MockSt) :
    (∀ e, (mockDeleteItem tableId orderId st).1 = .error e →
      (mockDeleteItem tableId orderId st).2 = st) ∧
    (∀ it, (mockDeleteItem tableId orderId st).1 = .ok it →
      ∃ pre e post, st.rows = pre ++ e :: post ∧
        rowMatches tableId orderId e = true ∧
        (∀ y ∈ pre, rowMatches tableId orderId y = false) ∧
        it = e.2 ∧
        (mockDeleteItem tableId orderId st).2 =
          { rows := pre ++ post, counter := st.counter }) := by
  unfold mockDeleteItem
  cases hr : removeFirst (rowMatches tableId orderId) st.rows with
  | none => exact ⟨fun _ _ => rfl, fun it h => absurd h (by simp)⟩
  | some pr =>
    obtain ⟨e, rest⟩ := pr
    refine ⟨fun e2 h => absurd h (by simp), ?_⟩
    intro it h
    injection h with h
    subst h
    obtain ⟨pre, post, hl, hp, hpre, hrest⟩ :=
      removeFirst_spec (rowMatches tableId orderId) st.rows e rest hr
    exact ⟨pre, e, post, hl, hp, hpre, rfl, by rw [hrest]⟩

/-- A two-row store used to exercise `delete_item`. -/
def demoStore : MockSt :=
  { rows := [(2, { name := ("b").toList, time_to_completion := 6, id := 1 }),
             (1, { name := ("a").toList, time_to_completion := 7, id := 0 })],
    counter := 2 }

/-- Witness for C9: deleting item 0 of table 1 from a two-row store. -/
theorem c9_delete_item_atomic_witness :
    (mockDeleteItem 1 0 demoStore).1 =
      .ok { name := ("a").toList, time_to_completion := 7, id := 0 } ∧
    ∃ pre e post, demoStore.rows = pre ++ e :: post ∧
      rowMatches 1 0 e = true ∧ (∀ y ∈ pre, rowMatches 1 0 y = false) ∧
      ({ name := ("a").toList, time_to_completion := 7, id := 0 } : Item) = e.2 ∧
      (mockDeleteItem 1 0 demoStore).2 =
        { rows := pre ++ post, counter := demoStore.counter } :=
  ⟨by decide,
   (c9_delete_item_atomic 1 0 demoStore).2
     { name := ("a").toList, time_to_completion := 7, id := 0 } (by decide)⟩

/-- C6: when the path matches a registered pattern whose method table lacks
the request's method, `HttpRouter::route` answers `NotFound` (not a 405);
in particular `POST /api/v1/orders/1` against a router with only a GET
handler for that pattern routes to `NotFound` and is served as a 404 with
an empty body. -/
theorem c6_method_absent_not_found :
    (∀ (r : HttpRouter) (request : Request) (db : MockSt) key ps mt,
      routerAt r.routes request.path = some (key, ps) →
      alLookup key r.handlers = some mt →
      alLookup request.method mt = none →
      HttpRouter.route r request db =
        (.error (.app (.NotFound
          ((("No handler for ").toList) ++ request.method ++ [' '] ++ key))), db)) ∧
    ((HttpRouter.route demoRouter demoPost mockNew).1 =
      .error (.app (.NotFound (("No handler for POST ORDER_BY_ID").toList))) ∧
     (serveHandler demoRouter demoPost mockNew).1 =
      { status := some 404, headers := [], body := [] }) := by
  refine ⟨?_, by decide, by decide⟩
  intro r request db key ps mt h1 h2 h3
  simp only [HttpRouter.route, h1, h2, h3]

/-- Witness for C6: the general statement applied to the demo router. -/
theorem c6_method_absent_not_found_witness :
    routerAt demoRouter.routes demoPost.path =
      some (orderByIdKey, [(orderIdKey, ("1").toList)]) ∧
    alLookup orderByIdKey demoRouter.handlers =
      some [((("GET").toList), getItems)] ∧
    HttpRouter.route demoRouter demoPost mockNew =
      (.error (.app (.NotFound
        ((("No handler for ").toList) ++ demoPost.method ++ [' '] ++ orderByIdKey))),
       mockNew) :=
  ⟨by decide, rfl,
   c6_method_absent_not_found.1 demoRouter demoPost mockNew orderByIdKey
     [(orderIdKey, ("1").toList)] [((("GET").toList), getItems)]
     (by decide) rfl rfl⟩

/-- C3: `MockDB::get_order` answers `NotFound` for every table with no
stored items, but `SQLiteConnection::get_order` on the empty store answers
`Ok` with an empty item list instead of `NotFound`, contradicting the
`Database` trait's documented contract. -/
theorem c3_get_order_empty :
    (∀ (st : MockSt) (t : Nat), st.rows.filter (fun e => e.1 == t) = [] →
      ∃ m, mockGetOrder st t = .error (.app (.NotFound m))) ∧
    (mockGetOrder mockNew 999 =
      .error (.app (.NotFound (("No orders for table 999").toList)))) ∧
    (sqliteGetOrder sqlNew 999 = .ok { table_number := 999, items := [] }) := by
  refine ⟨?_, by decide, by decide⟩
  intro st t h
  unfold mockGetOrder
  rw [h]
  exact ⟨_, rfl⟩

/-- Witness for C3: the `MockDB` half applied to the empty store. -/
theorem c3_get_order_empty_witness :
    (mockNew.rows.filter (fun e => e.1 == 999) = []) ∧
    ∃ m, mockGetOrder mockNew 999 = .error (.app (.NotFound m)) :=
  ⟨rfl, c3_get_order_empty.1 mockNew 999 rfl⟩

/-- C7: a path parameter that is missing, or that does not parse as a
`u32`, makes `get_id` (and with it the handlers) return `BadRequest`; in
particular `GET /api/v1/orders/abc` fails in `get_items` with `BadRequest`
and is served as a 400 with an empty body. -/
theorem c7_param_bad_request :
    (∀ (ps : HttpParams) (k : Str), alLookup k ps = none →
      ∃ m, getId ps k = .error (.app (.BadRequest m))) ∧
    (∀ (ps : HttpParams) (k v : Str), alLookup k ps = some v →
      parseU32Str v = none →
      ∃ m, getId ps k = .error (.app (.BadRequest m))) ∧
    (∀ (req : Request) (db : MockSt),
      getItems req [(orderIdKey, ("abc").toList)] db =
        (.error (.app (.BadRequest (("invalid digit found in string").toList))), db)) ∧
    ((serveHandler demoRouter (Request.get (("/api/v1/orders/abc").toList)) mockNew).1 =
      { status := some 400, headers := [], body := [] }) := by
  refine ⟨?_, ?_, fun req db => rfl, by decide⟩
  · intro ps k h
    unfold getId
    rw [h]
    exact ⟨_, rfl⟩
  · intro ps k v h hv
    simp only [getId, h, hv]
    exact ⟨_, rfl⟩

/-- Witness for C7: both `get_id` failure modes at concrete inputs. -/
theorem c7_param_bad_request_witness :
    (alLookup orderIdKey ([] : HttpParams) = none ∧
      ∃ m, getId [] orderIdKey = .error (.app (.BadRequest m))) ∧
    (alLookup orderIdKey [(orderIdKey, ("abc").toList)] = some (("abc").toList) ∧
      parseU32Str (("abc").toList) = none ∧
      ∃ m, getId [(orderIdKey, ("abc").toList)] orderIdKey =
        .error (.app (.BadRequest m))) :=
  ⟨⟨rfl, c7_param_bad_request.1 [] orderIdKey rfl⟩,
   ⟨rfl, by decide,
    c7_param_bad_request.2.1 [(orderIdKey, ("abc").toList)] orderIdKey
      (("abc").toList) rfl (by decide)⟩⟩

/-! ## C2: the Content-Length body invariant -/

theorem phase1_ok_shape :
    ∀ (chunks : List Str) (acc : Str) bl pl req a rest,
      phase1 chunks acc = .ok (bl, pl, req, a, rest) →
      bl = contentLengthOf req.headers ∧ req.body = [] := by
  intro chunks
  induction chunks with
  | nil => intro acc bl pl req a rest h; simp [phase1] at h
  | cons chunk rest2 ih =>
    intro acc bl pl req a rest h
    rw [phase1] at h
    by_cases hc : chunk = []
    · rw [if_pos hc] at h; exact absurd h (by simp)
    · rw [if_neg hc] at h
      cases hh : httparseRequest (acc ++ chunk) with
      | complete m p hs r =>
        simp only [hh, Except.ok.injEq, Prod.mk.injEq] at h
        obtain ⟨hbl, hpl, hreq, -, -⟩ := h
        subst hbl
        rw [← hreq]
        exact ⟨rfl, rfl⟩
      | incomplete =>
        simp only [hh] at h
        exact ih (acc ++ chunk) bl pl req a rest h
      | failed =>
        simp only [hh] at h
        exact absurd h (by simp)

theorem phase2_ok_le :
    ∀ (chunks : List Str) (acc : Str) (pl bl : Nat) (a2 : Str),
      phase2 chunks acc pl bl = .ok a2 → bl ≤ a2.length - pl := by
  intro chunks
  induction chunks with
  | nil =>
    intro acc pl bl a2 h
    rw [phase2] at h
    by_cases hgt : bl > acc.length - pl
    · rw [if_pos hgt] at h; exact absurd h (by simp)
    · rw [if_neg hgt] at h
      injection h with h
      subst h
      omega
  | cons c rest ih =>
    intro acc pl bl a2 h
    rw [phase2] at h
    by_cases hgt : bl > acc.length - pl
    · rw [if_pos hgt] at h
      by_cases hc : c = []
      · rw [if_pos hc] at h; exact absurd h (by simp)
      · rw [if_neg hc] at h; exact ih (acc ++ c) pl bl a2 h
    · rw [if_neg hgt] at h
      injection h with h
      subst h
      omega

/-- C2: for every byte stream accepted by `parse_request`, if the
`Content-Length` header resolves to `N > 0`, the returned request's body
has length exactly `N`. -/
theorem c2_body_length (chunks : List Str) (req : Request) (n : Nat)
    (h : parseRequest chunks = .ok req)
    (hn : contentLengthOf req.headers = n) (hpos : 0 < n) :
    req.body.length = n := by
  unfold parseRequest at h
  cases h1 : phase1 chunks [] with
  | error e => rw [h1] at h; exact absurd h (by simp)
  | ok out =>
    obtain ⟨bl, pl, req0, a, rest⟩ := out
    rw [h1] at h
    cases h2 : phase2 rest a pl bl with
    | error e =>
      simp only [h2] at h
      exact absurd h (by simp)
    | ok a2 =>
      simp only [h2] at h
      injection h with h
      obtain ⟨hbl, -⟩ := phase1_ok_shape chunks [] bl pl req0 a rest h1
      have hle := phase2_ok_le rest a pl bl a2 h2
      have hhd : req.headers = req0.headers := by rw [← h]
      have hbody : req.body = (a2.drop pl).take bl := by rw [← h]
      rw [hbody, List.length_take, List.length_drop]
      rw [hhd, ← hbl] at hn
      omega

/-- Witness for C2: a POST with `Content-Length: 2` and body `hi`. -/
theorem c2_body_length_witness :
    parseRequest [("POST /x HTTP/1.1\x0d\x0aContent-Length: 2\x0d\x0a\x0d\x0ahi").toList] =
      .ok { method := ("POST").toList, path := ("/x").toList,
            headers := [((("Content-Length").toList), (("2").toList))],
            body := ("hi").toList } ∧
    contentLengthOf [((("Content-Length").toList), (("2").toList))] = 2 ∧
    ("hi").toList.length = 2 :=
  ⟨by decide, by decide,
   c2_body_length [("POST /x HTTP/1.1\x0d\x0aContent-Length: 2\x0d\x0a\x0d\x0ahi").toList]
     { method := ("POST").toList, path := ("/x").toList,
       headers := [((("Content-Length").toList), (("2").toList))],
       body := ("hi").toList } 2 (by decide) (by decide) (by decide)⟩

/-! ## C8: id monotonicity and completion-time bounds across insertions -/

/-- A sequence of `insert_orders` calls against the mock store, collecting
every returned item in order. -/
def runMockInserts : List (List Str × Nat) → MockSt → RandSt → List Item × MockSt × RandSt
  | [], st, g => ([], st, g)
  | (names, t) :: calls, st, g =>
    let out := mockInsertOrders names t st g
    let out2 := runMockInserts calls out.2.1 out.2.2
    (out.1 ++ out2.1, out2.2)

/-- A sequence of `insert_orders` calls against the SQLite store. -/
def runSqlInserts : List (List Str × Nat) → SqlSt → RandSt → List Item × SqlSt × RandSt
  | [], st, g => ([], st, g)
  | (names, t) :: calls, st, g =>
    let out := sqliteInsertOrders names t st g
    let out2 := runSqlInserts calls out.2.1 out.2.2
    (out.1 ++ out2.1, out2.2)

/-- Total number of items over a sequence of insertion calls. -/
def totalNames (calls : List (List Str × Nat)) : Nat :=
  (calls.map (fun c => c.1.length)).sum

theorem mockInsertGo_spec (tableId : Nat) :
    ∀ (names : List Str) (c : Nat) (g : RandSt), c + names.length < 2 ^ 32 →
      (mockInsertGo tableId names c g).1.map (fun e => e.2.id) =
        List.range' c names.length ∧
      (mockInsertGo tableId names c g).2.1 = c + names.length ∧
      ∀ e ∈ (mockInsertGo tableId names c g).1,
        5 ≤ e.2.time_to_completion ∧ e.2.time_to_completion < 15 := by
  intro names
  induction names with
  | nil =>
    intro c g _
    exact ⟨rfl, rfl, by intro e he; simp [mockInsertGo] at he⟩
  | cons name rest ih =>
    intro c g h
    have hc1 : (c + 1) % 2 ^ 32 = c + 1 := Nat.mod_eq_of_lt (by simp at h ⊢; omega)
    have hmod : g 0 % 10 < 10 := Nat.mod_lt _ (by omega)
    obtain ⟨ih1, ih2, ih3⟩ :=
      ih (c + 1) (fun n => g (n + 1)) (by simp at h ⊢; omega)
    rcases hrec : mockInsertGo tableId rest (c + 1) (fun n => g (n + 1))
      with ⟨es, c2, g2⟩
    rw [hrec] at ih1 ih2 ih3
    refine ⟨?_, ?_, ?_⟩
    · simp only [mockInsertGo, getRand, hc1, hrec, List.map_cons, ih1,
        List.length_cons]
      rw [List.range'_succ]
    · simp only [mockInsertGo, getRand, hc1, hrec]
      simp only at ih2
      simp [ih2, List.length_cons]
      omega
    · intro e he
      simp only [mockInsertGo, getRand, hc1, hrec, List.mem_cons] at he
      rcases he with he | he
      · subst he
        constructor <;> (dsimp only; omega)
      · exact ih3 e he

theorem sqlInsertGo_spec :
    ∀ (names : List Str) (c : Nat) (g : RandSt), c + names.length < 2 ^ 32 →
      (sqlInsertGo names c g).1.map Item.id = List.range' c names.length ∧
      (sqlInsertGo names c g).2.1 = c + names.length ∧
      ∀ it ∈ (sqlInsertGo names c g).1,
        5 ≤ it.time_to_completion ∧ it.time_to_completion < 15 := by
  intro names
  induction names with
  | nil =>
    intro c g _
    exact ⟨rfl, rfl, by intro e he; simp [sqlInsertGo] at he⟩
  | cons name rest ih =>
    intro c g h
    have hc1 : (c + 1) % 2 ^ 32 = c + 1 := Nat.mod_eq_of_lt (by simp at h ⊢; omega)
    have hmod : g 0 % 10 < 10 := Nat.mod_lt _ (by omega)
    obtain ⟨ih1, ih2, ih3⟩ :=
      ih (c + 1) (fun n => g (n + 1)) (by simp at h ⊢; omega)
    rcases hrec : sqlInsertGo rest (c + 1) (fun n => g (n + 1)) with ⟨es, c2, g2⟩
    rw [hrec] at ih1 ih2 ih3
    refine ⟨?_, ?_, ?_⟩
    · simp only [sqlInsertGo, getRand, hc1, hrec, List.map_cons, ih1,
        List.length_cons]
      rw [List.range'_succ]
    · simp only [sqlInsertGo, getRand, hc1, hrec]
      simp only at ih2
      simp [ih2, List.length_cons]
      omega
    · intro e he
      simp only [sqlInsertGo, getRand, hc1, hrec, List.mem_cons] at he
      rcases he with he | he
      · subst he
        constructor <;> (dsimp only; omega)
      · exact ih3 e he

theorem runMockInserts_spec :
    ∀ (calls : List (List Str × Nat)) (st : MockSt) (g : RandSt),
      st.counter + totalNames calls < 2 ^ 32 →
      (runMockInserts calls st g).1.map Item.id =
        List.range' st.counter (totalNames calls) ∧
      (runMockInserts calls st g).2.1.counter = st.counter + totalNames calls ∧
      ∀ it ∈ (runMockInserts calls st g).1,
        5 ≤ it.time_to_completion ∧ it.time_to_completion < 15 := by
  intro calls
  induction calls with
  | nil =>
    intro st g _
    exact ⟨rfl, by simp [runMockInserts, totalNames], by
      intro it hit; simp [runMockInserts] at hit⟩
  | cons call calls ih =>
    intro st g h
    obtain ⟨names, t⟩ := call
    have htot : totalNames ((names, t) :: calls) = names.length + totalNames calls := by
      simp [totalNames]
    rw [htot] at h
    obtain ⟨g1, g2, g3⟩ := mockInsertGo_spec t names st.counter g (by omega)
    rcases hgo : mockInsertGo t names st.counter g with ⟨dbItems, c2, grest⟩
    rw [hgo] at g1 g2 g3
    simp only at g1 g2
    obtain ⟨ih1, ih2, ih3⟩ :=
      ih { rows := st.rows ++ dbItems, counter := c2 } grest (by simp; omega)
    refine ⟨?_, ?_, ?_⟩
    · simp only [runMockInserts, mockInsertOrders, hgo, List.map_append]
      rw [show (dbItems.map (fun (e : Nat × Item) => e.2)).map Item.id
            = dbItems.map (fun e => e.2.id) by simp, g1, ih1]
      simp only [g2, htot]
      have happ := List.range'_append st.counter names.length (totalNames calls) 1
      simp only [Nat.one_mul] at happ
      rw [happ, Nat.add_comm (totalNames calls) names.length]
    · simp only [runMockInserts, mockInsertOrders, hgo, ih2]
      omega
    · intro it hit
      simp only [runMockInserts, mockInsertOrders, hgo, List.mem_append] at hit
      rcases hit with hit | hit
      · obtain ⟨e, he, heq⟩ := List.mem_map.mp hit
        subst heq
        exact g3 e he
      · exact ih3 it hit

theorem runSqlInserts_spec :
    ∀ (calls : List (List Str × Nat)) (st : SqlSt) (g : RandSt),
      st.counter + totalNames calls < 2 ^ 32 →
      (runSqlInserts calls st g).1.map Item.id =
        List.range' st.counter (totalNames calls) ∧
      (runSqlInserts calls st g).2.1.counter = st.counter + totalNames calls ∧
      ∀ it ∈ (runSqlInserts calls st g).1,
        5 ≤ it.time_to_completion ∧ it.time_to_completion < 15 := by
  intro calls
  induction calls with
  | nil =>
    intro st g _
    exact ⟨rfl, by simp [runSqlInserts, totalNames], by
      intro it hit; simp [runSqlInserts] at hit⟩
  | cons call calls ih =>
    intro st g h
    obtain ⟨names, t⟩ := call
    have htot : totalNames ((names, t) :: calls) = names.length + totalNames calls := by
      simp [totalNames]
    rw [htot] at h
    obtain ⟨g1, g2, g3⟩ := sqlInsertGo_spec names st.counter g (by omega)
    rcases hgo : sqlInsertGo names st.counter g with ⟨items, c2, grest⟩
    rw [hgo] at g1 g2 g3
    simp only at g1 g2
    obtain ⟨ih1, ih2, ih3⟩ :=
      ih { rows := st.rows ++ items.map (fun it =>
             { id := it.id, item := it.name, table_number := t,
               time_to_completion := it.time_to_completion }), counter := c2 }
        grest (by simp; omega)
    refine ⟨?_, ?_, ?_⟩
    · simp only [runSqlInserts, sqliteInsertOrders, hgo, htot, List.map_append, ih1, g1]
      simp only [g2]
      have happ := List.range'_append st.counter names.length (totalNames calls) 1
      simp only [Nat.one_mul] at happ
      rw [happ, Nat.add_comm (totalNames calls) names.length]
    · simp only [runSqlInserts, sqliteInsertOrders, hgo, ih2]
      omega
    · intro it hit
      simp only [runSqlInserts, sqliteInsertOrders, hgo, List.mem_append] at hit
      rcases hit with hit | hit
      · exact g3 it hit
      · exact ih3 it hit

/-- C8: across any sequence of insertions into a fresh store (fewer than
2^32 items in total, so the u32 id counter cannot wrap), every assigned id
is strictly greater than every id assigned before it, and every item's
`time_to_completion` lies in `[5, 15)`; this holds for `MockDB` and for
`SQLiteConnection`. -/
theorem c8_insert_monotone_ids (calls : List (List Str × Nat)) (g g2 : RandSt)
    (h : totalNames calls < 2 ^ 32) :
    (List.Pairwise (· < ·) ((runMockInserts calls mockNew g).1.map Item.id) ∧
      ∀ it ∈ (runMockInserts calls mockNew g).1,
        5 ≤ it.time_to_completion ∧ it.time_to_completion < 15) ∧
    (List.Pairwise (· < ·) ((runSqlInserts calls sqlNew g2).1.map Item.id) ∧
      ∀ it ∈ (runSqlInserts calls sqlNew g2).1,
        5 ≤ it.time_to_completion ∧ it.time_to_completion < 15) := by
  obtain ⟨m1, -, m3⟩ := runMockInserts_spec calls mockNew g (by simpa [mockNew] using h)
  obtain ⟨s1, -, s3⟩ := runSqlInserts_spec calls sqlNew g2 (by simpa [sqlNew] using h)
  refine ⟨⟨?_, m3⟩, ⟨?_, s3⟩⟩
  · rw [m1]; exact List.pairwise_lt_range' _ _ 1 (by omega)
  · rw [s1]; exact List.pairwise_lt_range' _ _ 1 (by omega)

/-- Witness for C8: two insertion calls on each store. -/
theorem c8_insert_monotone_ids_witness :
    totalNames [([("Pizza").toList, ("Burger").toList], 1), ([("Soda").toList], 2)] < 2 ^ 32 ∧
    (List.Pairwise (· < ·)
      ((runMockInserts [([("Pizza").toList, ("Burger").toList], 1), ([("Soda").toList], 2)]
          mockNew (fun n => n + 3)).1.map Item.id) ∧
      ∀ it ∈ (runMockInserts [([("Pizza").toList, ("Burger").toList], 1), ([("Soda").toList], 2)]
          mockNew (fun n => n + 3)).1,
        5 ≤ it.time_to_completion ∧ it.time_to_completion < 15) :=
  ⟨by decide,
   (c8_insert_monotone_ids
     [([("Pizza").toList, ("Burger").toList], 1), ([("Soda").toList], 2)]
     (fun n => n + 3) (fun n => n + 3) (by decide)).1⟩

/-! ## C1: the client-serialize / server-parse round trip -/

theorem scanUntil_of_append (stop : Char) (isBad : Char → Bool) :
    ∀ (t r : Str), (∀ c ∈ t, c ≠ stop ∧ isBad c = false) →
      scanUntil stop isBad (t ++ stop :: r) = .found t r := by
  intro t
  induction t with
  | nil => intro r _; simp [scanUntil]
  | cons c cs ih =>
    intro r h
    have hc := h c (List.mem_cons_self c cs)
    rw [List.cons_append, scanUntil, if_neg hc.1]
    simp only [hc.2, Bool.false_eq_true, if_false]
    rw [ih r (fun d hd => h d (List.mem_cons_of_mem c hd))]

theorem expectStr_append : ∀ (e r : Str), expectStr e (e ++ r) = .found [] r := by
  intro e
  induction e with
  | nil => intro r; rfl
  | cons c cs ih => intro r; rw [List.cons_append, expectStr, if_pos rfl, ih]

theorem parseHeaders_cons_eq (fuel : Nat) (c : Char) (rest : Str) :
    parseHeaders (fuel + 1) (c :: rest) =
      (if c = '\x0d' then
        match rest with
        | [] => HScan.more
        | c2 :: rest2 => if c2 = '\x0a' then .done [] rest2 else .bad
      else
        match scanUntil ':' (fun d => d == ' ' || d == '\x0d' || d == '\x0a')
            (c :: rest) with
        | .more => .more
        | .bad => .bad
        | .found name r1 =>
          if name = [] then .bad
          else
            match scanUntil '\x0d' (fun d => d == '\x0a')
                (r1.dropWhile (fun d => d == ' ' || d == '\x09')) with
            | .more => .more
            | .bad => .bad
            | .found v r2 =>
              match r2 with
              | [] => .more
              | c3 :: r3 =>
                if c3 = '\x0a' then
                  match parseHeaders fuel r3 with
                  | .done hs rest2 => .done ((name, v) :: hs) rest2
                  | out => out
                else .bad) := rfl

theorem parseHeaders_content_length (fuel : Nat) (D body : Str)
    (hD : D ≠ []) (hdig : ∀ c ∈ D, c.isDigit = true) :
    parseHeaders (fuel + 2)
      ((("Content-Length").toList) ++ ':' :: ' ' ::
        (D ++ '\x0d' :: '\x0a' :: '\x0d' :: '\x0a' :: body)) =
      .done [((("Content-Length").toList), D)] body := by
  obtain ⟨d, D2, rfl⟩ : ∃ d D2, D = d :: D2 := by
    cases D with
    | nil => exact absurd rfl hD
    | cons d D2 => exact ⟨d, D2, rfl⟩
  have hd := isDigit_ne (hdig d (List.mem_cons_self d D2))
  have hname : ∀ c ∈ (("Content-Length").toList : Str),
      c ≠ ':' ∧ (c == ' ' || c == '\x0d' || c == '\x0a') = false := by decide
  have hscan1 : scanUntil ':' (fun c => c == ' ' || c == '\x0d' || c == '\x0a')
      ((("Content-Length").toList) ++ ':' :: ' ' ::
        ((d :: D2) ++ '\x0d' :: '\x0a' :: '\x0d' :: '\x0a' :: body)) =
      .found (("Content-Length").toList)
        (' ' :: ((d :: D2) ++ '\x0d' :: '\x0a' :: '\x0d' :: '\x0a' :: body)) :=
    scanUntil_of_append _ _ _ _ hname
  have hval : ∀ c ∈ d :: D2, c ≠ '\x0d' ∧ (c == '\x0a') = false := by
    intro c hc
    have := isDigit_ne (hdig c hc)
    exact ⟨this.2.2.1, by simp [this.2.2.2.1]⟩
  have hscan2 : scanUntil '\x0d' (fun c => c == '\x0a')
      ((d :: D2) ++ '\x0d' :: '\x0a' :: '\x0d' :: '\x0a' :: body) =
      .found (d :: D2) ('\x0a' :: '\x0d' :: '\x0a' :: body) :=
    scanUntil_of_append _ _ _ _ hval
  have hrec : parseHeaders (fuel + 1) ('\x0d' :: '\x0a' :: body) = .done [] body := by
    rw [parseHeaders_cons_eq, if_pos rfl]
    simp
  rw [show ((("Content-Length").toList) ++ ':' :: ' ' ::
        ((d :: D2) ++ '\x0d' :: '\x0a' :: '\x0d' :: '\x0a' :: body) : Str) =
      'C' :: ((("ontent-Length").toList) ++ ':' :: ' ' ::
        ((d :: D2) ++ '\x0d' :: '\x0a' :: '\x0d' :: '\x0a' :: body)) from rfl]
  rw [show fuel + 2 = (fuel + 1) + 1 from rfl, parseHeaders_cons_eq]
  rw [if_neg (by decide : ¬('C' = '\x0d'))]
  rw [show ('C' :: ((("ontent-Length").toList) ++ ':' :: ' ' ::
        ((d :: D2) ++ '\x0d' :: '\x0a' :: '\x0d' :: '\x0a' :: body)) : Str) =
      (("Content-Length").toList) ++ ':' :: ' ' ::
        ((d :: D2) ++ '\x0d' :: '\x0a' :: '\x0d' :: '\x0a' :: body) from rfl]
  rw [hscan1]
  simp only [if_neg (by decide : ¬((("Content-Length").toList : Str) = []))]
  have hdrop : List.dropWhile (fun c => c == ' ' || c == '\x09')
      (' ' :: ((d :: D2) ++ '\x0d' :: '\x0a' :: '\x0d' :: '\x0a' :: body)) =
      (d :: D2) ++ '\x0d' :: '\x0a' :: '\x0d' :: '\x0a' :: body := by
    rw [List.dropWhile_cons_of_pos (by decide), List.cons_append,
      List.dropWhile_cons_of_neg (by simp [hd.2.1, hd.2.2.2.2.2])]
  rw [hdrop, hscan2]
  simp [hrec]

theorem httparseRequest_clientWire (m p b : Str)
    (hm : m ≠ []) (hmc : ∀ c ∈ m, c ≠ ' ' ∧ c ≠ '\x0d' ∧ c ≠ '\x0a')
    (hp : p ≠ []) (hpc : ∀ c ∈ p, c ≠ ' ' ∧ c ≠ '\x0d' ∧ c ≠ '\x0a') :
    httparseRequest (clientWire m p b) =
      .complete m p [((("Content-Length").toList), natToStr b.length)] b := by
  have hdig := all_mem_of_all (natToStr_all_digit b.length)
  have hkey : clientWire m p b =
      m ++ ' ' :: (p ++ ' ' :: ((("HTTP/1.1\x0d\x0a").toList) ++
        ((("Content-Length").toList) ++ ':' :: ' ' ::
          (natToStr b.length ++ '\x0d' :: '\x0a' :: '\x0d' :: '\x0a' :: b)))) := by
    rw [clientWire,
      show ((" HTTP/1.1\x0d\x0aContent-Length: ").toList : Str) =
        ' ' :: ((("HTTP/1.1\x0d\x0a").toList) ++ ((("Content-Length").toList)
          ++ [':', ' '])) from rfl,
      show (("\x0d\x0a\x0d\x0a").toList : Str) = ['\x0d', '\x0a', '\x0d', '\x0a']
        from rfl]
    simp [List.append_assoc]
  have hmok : ∀ c ∈ m, c ≠ ' ' ∧ (c == '\x0d' || c == '\x0a') = false := by
    intro c hc
    obtain ⟨h1, h2, h3⟩ := hmc c hc
    exact ⟨h1, by simp [h2, h3]⟩
  have hpok : ∀ c ∈ p, c ≠ ' ' ∧ (c == '\x0d' || c == '\x0a') = false := by
    intro c hc
    obtain ⟨h1, h2, h3⟩ := hpc c hc
    exact ⟨h1, by simp [h2, h3]⟩
  have s1 := scanUntil_of_append ' ' (fun c => c == '\x0d' || c == '\x0a') m
    (p ++ ' ' :: ((("HTTP/1.1\x0d\x0a").toList) ++
      ((("Content-Length").toList) ++ ':' :: ' ' ::
        (natToStr b.length ++ '\x0d' :: '\x0a' :: '\x0d' :: '\x0a' :: b)))) hmok
  have s2 := scanUntil_of_append ' ' (fun c => c == '\x0d' || c == '\x0a') p
    ((("HTTP/1.1\x0d\x0a").toList) ++
      ((("Content-Length").toList) ++ ':' :: ' ' ::
        (natToStr b.length ++ '\x0d' :: '\x0a' :: '\x0d' :: '\x0a' :: b))) hpok
  have s3 := expectStr_append (("HTTP/1.1\x0d\x0a").toList)
    ((("Content-Length").toList) ++ ':' :: ' ' ::
      (natToStr b.length ++ '\x0d' :: '\x0a' :: '\x0d' :: '\x0a' :: b))
  have hfuel : ((("Content-Length").toList) ++ ':' :: ' ' ::
      (natToStr b.length ++ '\x0d' :: '\x0a' :: '\x0d' :: '\x0a' :: b)).length + 1 =
      ((natToStr b.length).length + b.length + 19) + 2 := by
    simp [List.length_append]
    omega
  have s4 : parseHeaders
      (((("Content-Length").toList) ++ ':' :: ' ' ::
        (natToStr b.length ++ '\x0d' :: '\x0a' :: '\x0d' :: '\x0a' :: b)).length + 1)
      ((("Content-Length").toList) ++ ':' :: ' ' ::
        (natToStr b.length ++ '\x0d' :: '\x0a' :: '\x0d' :: '\x0a' :: b)) =
      .done [((("Content-Length").toList), natToStr b.length)] b := by
    rw [hfuel]
    exact parseHeaders_content_length _ _ b (natToStr_ne_nil b.length) hdig
  rw [hkey, httparseRequest]
  simp only [s1, s2, s3, s4, if_neg hm, if_neg hp]
  rfl

/-- C1 (amended): for every request whose method and path are non-empty and
free of spaces, CR and LF, and whose body length fits a `usize`, serializing
it on the client wire (which writes only the request line, a computed
`Content-Length` header and the body — never the request's own headers) and
parsing the bytes with `parse_request` yields a request with equal method,
path and body whose headers are exactly
`[("Content-Length", decimal byte length of the body)]`. -/
theorem c1_client_roundtrip (m p b : Str)
    (hm : m ≠ []) (hmc : ∀ c ∈ m, c ≠ ' ' ∧ c ≠ '\x0d' ∧ c ≠ '\x0a')
    (hp : p ≠ []) (hpc : ∀ c ∈ p, c ≠ ' ' ∧ c ≠ '\x0d' ∧ c ≠ '\x0a')
    (hb : b.length < 2 ^ 64) :
    parseRequest [clientWire m p b] =
      .ok { method := m, path := p,
            headers := [((("Content-Length").toList), natToStr b.length)],
            body := b } := by
  have hw := httparseRequest_clientWire m p b hm hmc hp hpc
  have hne : clientWire m p b ≠ [] := by
    intro h0
    rw [clientWire] at h0
    simp [List.append_eq_nil] at h0
  have hgrp : clientWire m p b =
      (m ++ [' '] ++ p ++ ((" HTTP/1.1\x0d\x0aContent-Length: ").toList)
        ++ natToStr b.length ++ (("\x0d\x0a\x0d\x0a").toList)) ++ b := by
    rw [clientWire]
  have hcl : contentLengthOf [((("Content-Length").toList), natToStr b.length)] =
      b.length := by
    simp only [contentLengthOf, List.find?]
    rw [show ((("Content-Length").toList : Str) ==
      (("Content-Length").toList : Str)) = true by decide]
    simp [parseUsizeStr_natToStr _ hb]
  have hph1 : phase1 [clientWire m p b] [] =
      .ok (b.length, (clientWire m p b).length - b.length,
        { method := m, path := p,
          headers := [((("Content-Length").toList), natToStr b.length)],
          body := [] }, clientWire m p b, []) := by
    rw [phase1, if_neg hne, List.nil_append]
    simp only [hw, hcl]
  have hlensplit : (clientWire m p b).length =
      (m ++ [' '] ++ p ++ ((" HTTP/1.1\x0d\x0aContent-Length: ").toList)
        ++ natToStr b.length ++ (("\x0d\x0a\x0d\x0a").toList)).length + b.length := by
    rw [hgrp, List.length_append]
  have hph2 : phase2 [] (clientWire m p b)
      ((clientWire m p b).length - b.length) b.length = .ok (clientWire m p b) := by
    rw [phase2, if_neg (by omega)]
  have hbody : ((clientWire m p b).drop
      ((clientWire m p b).length - b.length)).take b.length = b := by
    rw [hlensplit, Nat.add_sub_cancel, hgrp, List.drop_left, List.take_length]
  rw [parseRequest]
  simp only [hph1, hph2, hbody]

/-- C1 counterexample: for the request `GET /` with header set
`[("Host", "a")]` and empty body, the client-serialized bytes parse back to
a request whose header set is `[("Content-Length", "0")]`: the original
`Host` header is not preserved, so the round trip does not preserve the
`(name, value)` header set. -/
theorem c1_headers_dropped :
    parseRequest [clientWire
      ({ method := ("GET").toList, path := ("/").toList,
         headers := [((("Host").toList), (("a").toList))], body := [] } : Request).method
      ({ method := ("GET").toList, path := ("/").toList,
         headers := [((("Host").toList), (("a").toList))], body := [] } : Request).path
      ({ method := ("GET").toList, path := ("/").toList,
         headers := [((("Host").toList), (("a").toList))], body := [] } : Request).body] =
      .ok { method := ("GET").toList, path := ("/").toList,
            headers := [((("Content-Length").toList), (("0").toList))],
            body := [] } ∧
    ((("Host").toList, ("a").toList) ∈
      ({ method := ("GET").toList, path := ("/").toList,
         headers := [((("Host").toList), (("a").toList))], body := [] } : Request).headers) ∧
    ¬((("Host").toList, ("a").toList) ∈
      [((("Content-Length").toList), (("0").toList))]) := by decide

/-- Witness for C1 at `GET /x` with body `hi`. -/
theorem c1_client_roundtrip_witness :
    ((("GET").toList : Str) ≠ [] ∧ (("hi").toList : Str).length < 2 ^ 64) ∧
    parseRequest [clientWire (("GET").toList) (("/x").toList) (("hi").toList)] =
      .ok { method := ("GET").toList, path := ("/x").toList,
            headers := [((("Content-Length").toList),
              natToStr (("hi").toList : Str).length)],
            body := ("hi").toList } :=
  ⟨⟨by decide, by decide⟩,
   c1_client_roundtrip (("GET").toList) (("/x").toList) (("hi").toList)
     (by decide) (by decide) (by decide) (by decide) (by decide)⟩

end Paidy
